import Mathlib

/-!
Shallow embedding of the application state orchestrator of the learn-ai
repository (the `AppProvider` context component), together with models of the
storage-service and generation-client boundaries it calls into.

Modelling conventions:
* JavaScript records (`Record<string, T>`) and `Map`s are association lists in
  insertion order, matching JS iteration order for string keys.
* Each asynchronous handler takes the result its awaited generation-client call
  resolves to, as an `Except JsError α` argument.
* View-transition callbacks are modelled by counting their invocations in an
  effects record returned next to the new state.
* The persistence adapter is modelled as an explicit `Storage` value threaded
  through the handlers.
-/

/-- A thrown JavaScript value: either an `Error` instance carrying a message,
or any other thrown value, for which `e instanceof Error` is false. -/
inductive JsError where
  | error (message : String)
  | other
deriving DecidableEq

/-- The message the orchestrator extracts from a thrown value, translating
the test `e instanceof Error ? e.message : 'An unknown error occurred.'`. -/
def JsError.messageOf : JsError → String
  | .error m => m
  | .other => "An unknown error occurred."

/-- Modelled from the spec: knowledge levels are opaque labels such as
`beginner`; the `types.ts` module is not among the sources, so the label is
kept as a plain string. -/
structure KnowledgeLevel where
  label : String
deriving DecidableEq

/-- Modelled from the spec: a flashcard as synthesised by the generation
client; its payload is opaque to the orchestrator. -/
structure Flashcard where
  front : String
  back : String
deriving DecidableEq

/-- Modelled from the spec: a related-topic suggestion; opaque payload. -/
structure RelatedTopic where
  title : String
deriving DecidableEq

/-- Modelled from the spec: one quiz question; opaque payload. -/
structure QuizData where
  question : String
deriving DecidableEq

/-- A lesson: content with optional notes and an optional flashcard set. -/
structure Lesson where
  id : String
  content : String
  notes : Option String
  flashcards : Option (List Flashcard)
deriving DecidableEq

/-- A module of a course: an ordered sequence of lessons. -/
structure CourseModule where
  title : String
  lessons : List Lesson
deriving DecidableEq

/-- A course: id, title, knowledge level and ordered modules. -/
structure Course where
  id : String
  title : String
  knowledgeLevel : KnowledgeLevel
  modules : List CourseModule
deriving DecidableEq

/-- A folder: id, name and the membership list of course ids. -/
structure Folder where
  id : String
  name : String
  courseIds : List String
deriving DecidableEq

/-- One step of a project scaffold. -/
structure ProjectStep where
  id : String
  description : String
deriving DecidableEq

/-- A project: id, title and ordered steps. -/
structure Project where
  id : String
  title : String
  steps : List ProjectStep
deriving DecidableEq

/-- A progress record: lesson id (or step id) to completion timestamp, in
insertion order as a JS `Map`. -/
abbrev Progress := List (String × Nat)

/-- The role of a chat turn in the Socratic dialogue. -/
inductive ChatRole where
  | user
  | model
deriving DecidableEq

/-- One turn of the Socratic dialogue history. -/
structure ChatMessage where
  role : ChatRole
  content : String
deriving DecidableEq

/-- The state of the Socratic modal held by the view layer and threaded
through `handleSendSocraticMessage` and `handleCloseSocraticModal`. -/
structure SocraticState where
  isOpen : Bool
  originalText : String
  history : List ChatMessage
  isLoading : Bool
deriving DecidableEq

/-- The explore-related-topics modal session state. -/
structure ExploreModalState where
  isOpen : Bool
  isLoading : Bool
  courseTitle : String
  topics : List RelatedTopic
deriving DecidableEq

/-- A preloaded test payload awaiting consumption by the assessment view. -/
structure PreloadedTestState where
  topic : String
  difficulty : KnowledgeLevel
  questions : List QuizData
deriving DecidableEq

/-- The in-memory state held by the `AppProvider` component: the entity
collections, the per-entity progress records and the transient UI state. -/
structure AppState where
  courses : List Course
  folders : List Folder
  projects : List Project
  progressData : List (String × Progress)
  projectProgressData : List (String × Progress)
  activeCourse : Option Course
  activeProject : Option Project
  topic : String
  error : Option String
  funFacts : List String
  generatingLessonFlashcardId : Option String
  preloadedTest : Option PreloadedTestState
  exploreModalState : ExploreModalState
deriving DecidableEq

/-- The initial in-memory state, mirroring the `useState` initialisers. -/
def initialState : AppState :=
  { courses := []
    folders := []
    projects := []
    progressData := []
    projectProgressData := []
    activeCourse := none
    activeProject := none
    topic := ""
    error := none
    funFacts := []
    generatingLessonFlashcardId := none
    preloadedTest := none
    exploreModalState := ⟨false, false, "", []⟩ }

/-- Look up a key in a JS object or `Map` modelled as an association list. -/
def lookupKey (l : List (String × α)) (k : String) : Option α :=
  (l.find? (fun p => p.1 == k)).map Prod.snd

/-- JS object-spread update that rebinds key `k` to `v`: it replaces the value
in place when the key is present and otherwise appends the binding, matching
JS key insertion order. -/
def setKey (l : List (String × α)) (k : String) (v : α) : List (String × α) :=
  if l.any (fun p => p.1 == k) then l.map (fun p => if p.1 == k then (k, v) else p)
  else l ++ [(k, v)]

/-- JS `delete obj[k]`: drops the binding for `k`, keeping the others in
order. -/
def deleteKey (l : List (String × α)) (k : String) : List (String × α) :=
  l.filter (fun p => p.1 != k)

/-- Modelled from the spec: the persistence adapter stores the entity
collections and the per-entity progress records keyed by entity id; the
`storageService` module is not among the sources. -/
structure Storage where
  courses : List Course
  folders : List Folder
  projects : List Project
  progress : List (String × Progress)
  projectProgress : List (String × Progress)
deriving DecidableEq

/-- The empty stored data. -/
def emptyStorage : Storage := ⟨[], [], [], [], []⟩

/-- Modelled from the spec: `storageService.saveCourse` writes one course
record keyed by its entity id — a key-value upsert into the course
collection. -/
def storageSaveCourse (c : Course) (st : Storage) : Storage :=
  if st.courses.any (fun x => x.id == c.id) then
    { st with courses := st.courses.map (fun x => if x.id == c.id then c else x) }
  else
    { st with courses := st.courses ++ [c] }

/-- Modelled from the spec: `storageService.updateCourse` rewrites the stored
record of an existing course, the same key-value upsert as `saveCourse`. -/
def storageUpdateCourse (c : Course) (st : Storage) : Storage :=
  storageSaveCourse c st

/-- Modelled from the spec: `storageService.deleteCourse` removes the course
record with the given id. -/
def storageDeleteCourse (courseId : String) (st : Storage) : Storage :=
  { st with courses := st.courses.filter (fun c => c.id != courseId) }

/-- Modelled from the spec: `storageService.deleteProgress` removes the
progress record of the given course id. -/
def storageDeleteProgress (courseId : String) (st : Storage) : Storage :=
  { st with progress := deleteKey st.progress courseId }

/-- Modelled from the spec: `storageService.saveFolders` writes the whole
folder collection. -/
def storageSaveFolders (fs : List Folder) (st : Storage) : Storage :=
  { st with folders := fs }

/-- Modelled from the spec: `storageService.saveProject` writes one project
record keyed by its entity id. -/
def storageSaveProject (p : Project) (st : Storage) : Storage :=
  if st.projects.any (fun x => x.id == p.id) then
    { st with projects := st.projects.map (fun x => if x.id == p.id then p else x) }
  else
    { st with projects := st.projects ++ [p] }

/-- Modelled from the spec: the toggle of one lesson inside a progress
record — it removes the lesson's entry when present and otherwise inserts one
mapping the lesson id to the current timestamp `now` (progress maps send
lesson ids to completion timestamps, and the globally latest timestamp drives
the last-active-course derivation). -/
def toggleRecord (now : Nat) (lessonId : String) (record : Progress) : Progress :=
  if record.any (fun e => e.1 == lessonId) then
    record.filter (fun e => e.1 != lessonId)
  else record ++ [(lessonId, now)]

/-- Modelled from the spec: `storageService.toggleLessonProgress` reads the
stored progress record of `courseId` (an empty record when absent), toggles
the lesson, writes the record back, and returns it for the caller to merge
into memory. -/
def toggleLessonProgress (now : Nat) (courseId lessonId : String) (st : Storage) :
    Storage × Progress :=
  let newRecord := toggleRecord now lessonId ((lookupKey st.progress courseId).getD [])
  ({ st with progress := setKey st.progress courseId newRecord }, newRecord)

/-- The derived `lastActiveCourseId` scan over one progress record: keep the
strictly greatest timestamp seen so far together with the course id that set
it, translating the inner `for (const timestamp of progressMap.values())`
loop. -/
def scanRecord (courseId : String) (acc : Nat × Option String) (m : Progress) :
    Nat × Option String :=
  m.foldl (fun acc2 e => if acc2.1 < e.2 then (e.2, some courseId) else acc2) acc

/-- The derived `lastActiveCourseId` scan over all progress records in
iteration order, translating the outer `for (const courseId in progressData)`
loop. -/
def scanAll (pd : List (String × Progress)) (acc : Nat × Option String) :
    Nat × Option String :=
  pd.foldl (fun a p => scanRecord p.1 a p.2) acc

/-- The derived `lastActiveCourseId` memo: null when the progress-data object
has no keys, otherwise the course id kept by the scan that starts from
timestamp 0 and no course. -/
def lastActiveCourseId (pd : List (String × Progress)) : Option String :=
  if pd.isEmpty then none else (scanAll pd (0, none)).2

/-- The greatest timestamp in one progress record (0 when the record is
empty). -/
def recordMax (m : Progress) : Nat :=
  m.foldl (fun a e => max a e.2) 0

/-- The globally greatest timestamp across all progress records (0 when there
are none). -/
def globalMax (pd : List (String × Progress)) : Nat :=
  pd.foldl (fun a p => max a (recordMax p.2)) 0

/-- The spec's description of the last active course: the first course in
iteration order whose progress record holds the globally greatest
timestamp. -/
def specLastActiveCourseId (pd : List (String × Progress)) : Option String :=
  (pd.find? (fun p => p.2.any (fun e => e.2 == globalMax pd))).map Prod.fst

/-- `handleSelectCourse`: look the course up by id and make it active when
found; otherwise do nothing. -/
def handleSelectCourse (courseId : String) (s : AppState) : AppState :=
  match s.courses.find? (fun c => c.id == courseId) with
  | some c => { s with activeCourse := some c }
  | none => s

/-- `handleSelectProject`: look the project up by id and make it active when
found; otherwise do nothing. -/
def handleSelectProject (projectId : String) (s : AppState) : AppState :=
  match s.projects.find? (fun p => p.id == projectId) with
  | some p => { s with activeProject := some p }
  | none => s

/-- The stripping pass shared by `handleDeleteCourse` and
`handleMoveCourseToFolder`: remove the course id from every folder's
membership list. -/
def stripCourseFromFolders (courseId : String) (fs : List Folder) : List Folder :=
  fs.map (fun f =>
    { f with courseIds := f.courseIds.filter (fun id => id != courseId) })

/-- `handleDeleteCourse`: drop the course from the in-memory list, strip its
id from every folder's membership list, delete its progress record from memory
and storage, and delete the course from storage. -/
def handleDeleteCourse (courseId : String) (s : AppState) (st : Storage) :
    AppState × Storage :=
  let remainingCourses := s.courses.filter (fun c => c.id != courseId)
  let updatedFolders := stripCourseFromFolders courseId s.folders
  ({ s with courses := remainingCourses
            folders := updatedFolders
            progressData := deleteKey s.progressData courseId },
   storageDeleteProgress courseId (storageDeleteCourse courseId st))

/-- `handleToggleLessonComplete`: delegate to the storage toggle and merge the
returned record into the in-memory progress data under the course id. -/
def handleToggleLessonComplete (now : Nat) (courseId lessonId : String)
    (s : AppState) (st : Storage) : AppState × Storage :=
  let r := toggleLessonProgress now courseId lessonId st
  ({ s with progressData := setKey s.progressData courseId r.2 }, r.1)

/-- The `findIndex` / in-place `push` step of `handleMoveCourseToFolder`:
append the course id to the membership list of the first folder that has the
target id, leaving the list unchanged when no folder matches. -/
def addToFirstFolder (courseId tid : String) : List Folder → List Folder
  | [] => []
  | f :: fs =>
      if f.id == tid then { f with courseIds := f.courseIds ++ [courseId] } :: fs
      else f :: addToFirstFolder courseId tid fs

/-- `handleMoveCourseToFolder`: strip the course id from every folder's
membership list, then, when the target id is truthy and names an existing
folder, push the course id onto that folder's list; persist the folders. -/
def handleMoveCourseToFolder (courseId : String) (targetFolderId : Option String)
    (s : AppState) (st : Storage) : AppState × Storage :=
  let stripped := stripCourseFromFolders courseId s.folders
  let updatedFolders :=
    match targetFolderId with
    | some tid => if tid == "" then stripped else addToFirstFolder courseId tid stripped
    | none => stripped
  ({ s with folders := updatedFolders }, storageSaveFolders updatedFolders st)

/-- `handleSaveNote`: look the course up by id (a miss returns immediately),
rewrite the addressed lesson's notes, store the updated course, replace it in
the in-memory list, and refresh the active course when it is the one
updated. -/
def handleSaveNote (courseId lessonId note : String) (s : AppState) (st : Storage) :
    AppState × Storage :=
  match s.courses.find? (fun c => c.id == courseId) with
  | none => (s, st)
  | some courseToUpdate =>
      let updatedCourse := { courseToUpdate with
        modules := courseToUpdate.modules.map (fun m =>
          { m with lessons := m.lessons.map (fun l =>
              if l.id == lessonId then { l with notes := some note } else l) }) }
      let s1 := { s with courses := s.courses.map (fun c =>
        if c.id == updatedCourse.id then updatedCourse else c) }
      let s2 :=
        if (s.activeCourse.map Course.id) == some courseId then
          { s1 with activeCourse := some updatedCourse }
        else s1
      (s2, storageUpdateCourse updatedCourse st)

/-- Invocation counts of the view-transition callbacks and of the fun-fact
request issued by `handleGenerateCourse`. -/
structure GenCourseEffects where
  generatingCalls : Nat
  courseCalls : Nat
  canvasCalls : Nat
  funFactRequests : Nat
deriving DecidableEq

/-- The synchronous start of a course or project generation attempt: set the
topic, clear the error, clear the fun facts (the generating-view callback and
the fun-fact request are counted in the effects record). -/
def generationAttemptStart (t : String) (s : AppState) : AppState :=
  { s with topic := t, error := none, funFacts := [] }

/-- `handleGenerateCourse`: after the synchronous start, await course
generation. On success: persist the course, append its id to the truthy named
folder's membership list (re-persisting folders), prepend it to the in-memory
list, make it active, fire the show-course callback. On failure: set the
formatted error message embedding the thrown value's message and fire the
show-canvas callback. -/
def handleGenerateCourse (t : String) (level : KnowledgeLevel)
    (folderId : Option String) (result : Except JsError Course)
    (s : AppState) (st : Storage) : AppState × Storage × GenCourseEffects :=
  let s0 := generationAttemptStart t s
  match result with
  | .ok generatedCourse =>
      let st1 := storageSaveCourse generatedCourse st
      let withFolder :=
        match folderId with
        | some fid =>
            if fid == "" then (s0, st1)
            else
              let updatedFolders := s0.folders.map (fun (f : Folder) =>
                if f.id == fid then
                  { f with courseIds := f.courseIds ++ [generatedCourse.id] }
                else f)
              ({ s0 with folders := updatedFolders },
               storageSaveFolders updatedFolders st1)
        | none => (s0, st1)
      ({ withFolder.1 with courses := generatedCourse :: withFolder.1.courses
                           activeCourse := some generatedCourse },
       withFolder.2, ⟨1, 1, 0, 1⟩)
  | .error e =>
      ({ s0 with error := some ("Failed to generate the course. "
            ++ e.messageOf ++ ". Please try again.") },
       st, ⟨1, 0, 1, 1⟩)

/-- Invocation counts of the view-transition callbacks and of the fun-fact
request issued by `handleCreateProject`. -/
structure GenProjectEffects where
  generatingCalls : Nat
  projectCalls : Nat
  projectsCalls : Nat
  funFactRequests : Nat
deriving DecidableEq

/-- `handleCreateProject`: after the synchronous start, await project-scaffold
generation. On success: persist the project, prepend it to the in-memory list,
make it active, fire the show-project callback. On failure: set the formatted
error message and fire the show-projects callback. -/
def handleCreateProject (projectTopic : String) (result : Except JsError Project)
    (s : AppState) (st : Storage) : AppState × Storage × GenProjectEffects :=
  let s0 := generationAttemptStart projectTopic s
  match result with
  | .ok generatedProject =>
      ({ s0 with projects := generatedProject :: s0.projects
                 activeProject := some generatedProject },
       storageSaveProject generatedProject st, ⟨1, 1, 0, 1⟩)
  | .error e =>
      ({ s0 with error := some ("Failed to generate the project. "
            ++ e.messageOf ++ ". Please try again.") },
       st, ⟨1, 0, 1, 1⟩)

/-- Invocation count of the navigate-to-assessment callback of
`handleTestCourseConcepts`. -/
structure TestEffects where
  assessmentCalls : Nat
deriving DecidableEq

/-- `handleTestCourseConcepts`: await test generation from the course. On
success: stash the questions as the preloaded test and navigate to the
assessment view. On failure: set the error to the thrown message, or to the
fixed fallback when the thrown value is not an `Error`. The shared error slot
is not touched before the attempt. -/
def handleTestCourseConcepts (course : Course)
    (result : Except JsError (List QuizData)) (s : AppState) :
    AppState × TestEffects :=
  match result with
  | .ok questions =>
      let payload : PreloadedTestState := ⟨course.title, course.knowledgeLevel, questions⟩
      ({ s with preloadedTest := some payload }, ⟨1⟩)
  | .error e =>
      ({ s with error := some (match e with
          | .error m => m
          | .other => "Could not generate the test for this course.") }, ⟨0⟩)

/-- Numbers of generation-client calls and storage writes made by
`handleGenerateLessonFlashcards`. -/
structure FlashcardEffects where
  generateCalls : Nat
  storageWrites : Nat
deriving DecidableEq

/-- `handleGenerateLessonFlashcards`: return immediately when no course is
active; otherwise set the currently-generating marker, find the lesson in the
active course (a miss throws, caught without further effect), await flashcard
generation, and on success write the updated course to storage, into the
active course and into the in-memory list; the marker is cleared in the
`finally` block on every path past the initial guard. -/
def handleGenerateLessonFlashcards (lessonId : String)
    (result : Except JsError (List Flashcard)) (s : AppState) (st : Storage) :
    AppState × Storage × FlashcardEffects :=
  match s.activeCourse with
  | none => (s, st, ⟨0, 0⟩)
  | some activeCourse =>
      let s1 := { s with generatingLessonFlashcardId := some lessonId }
      match (activeCourse.modules.flatMap (fun m => m.lessons)).find?
          (fun l => l.id == lessonId) with
      | none => ({ s1 with generatingLessonFlashcardId := none }, st, ⟨0, 0⟩)
      | some _ =>
          match result with
          | .ok generatedCards =>
              let updatedCourse := { activeCourse with
                modules := activeCourse.modules.map (fun m =>
                  { m with lessons := m.lessons.map (fun l =>
                      if l.id == lessonId then
                        { l with flashcards := some generatedCards }
                      else l) }) }
              ({ s1 with activeCourse := some updatedCourse
                         courses := s1.courses.map (fun c =>
                           if c.id == updatedCourse.id then updatedCourse else c)
                         generatingLessonFlashcardId := none },
               storageUpdateCourse updatedCourse st, ⟨1, 1⟩)
          | .error _ =>
              ({ s1 with generatingLessonFlashcardId := none }, st, ⟨1, 0⟩)

/-- The fixed fallback model turn appended when the Socratic generation call
fails. -/
def socraticFallback : String := "I'm having trouble thinking. Please try again."

/-- `handleSendSocraticMessage`: append the user turn and set loading (the
first returned state, published before the await), then append the model turn
from the response — or the fixed fallback on failure — and clear loading (the
second returned state). -/
def handleSendSocraticMessage (message : String) (result : Except JsError String)
    (ss : SocraticState) : SocraticState × SocraticState :=
  let newHistory := ss.history ++ [⟨ChatRole.user, message⟩]
  let mid := { ss with history := newHistory, isLoading := true }
  match result with
  | .ok aiResponse =>
      (mid, { mid with history := newHistory ++ [⟨ChatRole.model, aiResponse⟩]
                       isLoading := false })
  | .error _ =>
      (mid, { mid with history := newHistory ++ [⟨ChatRole.model, socraticFallback⟩]
                       isLoading := false })

/-- `handleCloseSocraticModal`: reset the session to the closed empty state,
discarding the history. -/
def handleCloseSocraticModal (_ss : SocraticState) : SocraticState :=
  ⟨false, "", [], false⟩

/-- A sample generated course used to instantiate theorems with hypotheses. -/
def sampleCourse : Course :=
  ⟨"c1", "Photosynthesis", ⟨"beginner"⟩, [⟨"m1", [⟨"l1", "light", none, none⟩]⟩]⟩

/-- A state holding the sample course, a folder containing it, and a progress
record for it: every reference resolves to a listed course. -/
def sampleState : AppState :=
  { initialState with
    courses := [sampleCourse]
    folders := [⟨"f1", "Biology", ["c1"]⟩]
    progressData := [("c1", [("l1", 5)])] }

/-- Stored data matching `sampleState`. -/
def sampleStorage : Storage :=
  { emptyStorage with
    courses := [sampleCourse]
    folders := [⟨"f1", "Biology", ["c1"]⟩]
    progress := [("c1", [("l1", 5)])] }

/-- No reference dangles: every course id in a folder membership list and
every key of the progress-data record belongs to a listed course. -/
def noDanglingB (s : AppState) : Bool :=
  s.folders.all (fun f => f.courseIds.all (fun cid =>
    s.courses.any (fun c => c.id == cid))) &&
  s.progressData.all (fun p => s.courses.any (fun c => c.id == p.1))

/-- A sequence of delete-course operations applied in order. -/
def applyDeletes (ids : List String) (s : AppState) (st : Storage) :
    AppState × Storage :=
  ids.foldl (fun acc cid => handleDeleteCourse cid acc.1 acc.2) (s, st)

/-- A saved course is present in the stored course collection. -/
theorem mem_storageSaveCourse (c : Course) (st : Storage) :
    c ∈ (storageSaveCourse c st).courses := by
  unfold storageSaveCourse
  split
  · rename_i h
    rw [List.any_eq_true] at h
    obtain ⟨x, hx, hxe⟩ := h
    simp only [List.mem_map]
    exact ⟨x, hx, by simp_all⟩
  · simp

/-- C2: generating a course with a null folder id and a successful generation
client prepends the generated course to the head of the in-memory course
list, persists it, makes it the active course, leaves the error state null,
and fires the show-course transition exactly once. -/
theorem generateCourse_success_spec (t : String) (level : KnowledgeLevel)
    (c : Course) (s : AppState) (st : Storage) :
    let r := handleGenerateCourse t level none (Except.ok c) s st
    r.1.courses = c :: s.courses ∧
    c ∈ r.2.1.courses ∧
    r.1.activeCourse = some c ∧
    r.1.error = none ∧
    r.2.2.courseCalls = 1 := by
  intro r
  exact ⟨rfl, mem_storageSaveCourse c st, rfl, rfl, rfl⟩

/-- C3: generating a course with a failing generation client sets the error
state to a non-empty formatted string embedding the thrown value's message,
leaves the active course and the course list unchanged, and fires the
show-canvas transition exactly once. -/
theorem generateCourse_failure_spec (t : String) (level : KnowledgeLevel)
    (folderId : Option String) (e : JsError) (s : AppState) (st : Storage) :
    let r := handleGenerateCourse t level folderId (Except.error e) s st
    r.1.error = some ("Failed to generate the course. " ++ e.messageOf
        ++ ". Please try again.") ∧
    ("Failed to generate the course. " ++ e.messageOf
        ++ ". Please try again.") ≠ "" ∧
    (∃ a b, ("Failed to generate the course. " ++ e.messageOf
        ++ ". Please try again.") = a ++ e.messageOf ++ b) ∧
    r.1.activeCourse = s.activeCourse ∧
    r.1.courses = s.courses ∧
    r.2.2.canvasCalls = 1 := by
  intro r
  refine ⟨rfl, ?_, ⟨_, _, rfl⟩, rfl, rfl, rfl⟩
  intro h
  have hl := congrArg String.length h
  simp [String.length_append] at hl
  exact absurd hl.1.1 (by decide)

/-- Every folder produced by the stripping pass has lost the course id from
its membership list. -/
theorem stripCourse_not_mem (cid : String) (fs : List Folder) :
    ∀ f ∈ stripCourseFromFolders cid fs, cid ∉ f.courseIds := by
  intro f hf
  rw [stripCourseFromFolders, List.mem_map] at hf
  obtain ⟨g, _, rfl⟩ := hf
  simp

/-- After the stripping pass, no folder counts as containing the course id. -/
theorem stripCourse_countP (cid : String) (fs : List Folder) :
    (stripCourseFromFolders cid fs).countP
      (fun f => f.courseIds.contains cid) = 0 := by
  refine List.countP_eq_zero.mpr ?_
  intro f hf
  simpa using stripCourse_not_mem cid fs f hf

/-- After the stripping pass, every folder satisfies the negated-membership
test. -/
theorem stripCourse_all_not (cid : String) (fs : List Folder) :
    (stripCourseFromFolders cid fs).all
      (fun f => !(f.courseIds.contains cid)) = true := by
  rw [List.all_eq_true]
  intro f hf
  simpa using stripCourse_not_mem cid fs f hf

/-- Pushing the course id onto the first matching folder of a list in which no
folder contains it leaves at most one folder containing it. -/
theorem addToFirstFolder_countP (cid tid : String) :
    ∀ l : List Folder,
      l.countP (fun f => f.courseIds.contains cid) = 0 →
      (addToFirstFolder cid tid l).countP
        (fun f => f.courseIds.contains cid) ≤ 1 := by
  intro l
  induction l with
  | nil => intro _; simp [addToFirstFolder]
  | cons f fs ih =>
      intro h
      rw [List.countP_cons] at h
      have hf : (f.courseIds.contains cid : Bool) = false := by
        cases hb : (f.courseIds.contains cid : Bool)
        · rfl
        · rw [hb] at h; simp at h
      have hfs : fs.countP (fun f => f.courseIds.contains cid) = 0 := by omega
      unfold addToFirstFolder
      split
      · rw [List.countP_cons, hfs]
        split <;> omega
      · rw [List.countP_cons]
        have h1 := ih hfs
        have h2 : (if (f.courseIds.contains cid : Bool) = true then 1 else 0) = 0 := by
          rw [hf]
          simp
        omega

/-- Pushing the course id onto the first matching folder of a list in which no
folder contains it: afterwards any folder containing the id is named by the
target id. -/
theorem addToFirstFolder_all (cid tid : String) :
    ∀ l : List Folder,
      l.all (fun f => !(f.courseIds.contains cid)) = true →
      (addToFirstFolder cid tid l).all
        (fun f => !(f.courseIds.contains cid) || (f.id == tid)) = true := by
  intro l
  induction l with
  | nil => intro _; simp [addToFirstFolder]
  | cons f fs ih =>
      intro h
      rw [List.all_cons, Bool.and_eq_true] at h
      unfold addToFirstFolder
      split
      · rename_i ht
        rw [List.all_cons, Bool.and_eq_true]
        constructor
        · simp [ht]
        · rw [List.all_eq_true] at h ⊢
          intro f2 hf2
          have := h.2 f2 hf2
          simp_all
      · rw [List.all_cons, Bool.and_eq_true]
        refine ⟨?_, ih h.2⟩
        have hnf : cid ∉ f.courseIds := by simpa using h.1
        simp [hnf]

/-- C4: after `handleMoveCourseToFolder` the course id appears in at most one
folder's membership list, and any folder still containing it is the named
target — so a null target removes it from every folder, and assigning to a
new folder removes it from the previous one. -/
theorem moveCourse_membership_spec (courseId : String)
    (targetFolderId : Option String) (s : AppState) (st : Storage) :
    ((handleMoveCourseToFolder courseId targetFolderId s st).1.folders.countP
        (fun f => f.courseIds.contains courseId)) ≤ 1 ∧
    ((handleMoveCourseToFolder courseId targetFolderId s st).1.folders.all
        (fun f =>
          !(f.courseIds.contains courseId) || (some f.id == targetFolderId)))
      = true := by
  cases targetFolderId with
  | none =>
      refine ⟨?_, ?_⟩
      · show (stripCourseFromFolders courseId s.folders).countP _ ≤ 1
        rw [stripCourse_countP]
        omega
      · show (stripCourseFromFolders courseId s.folders).all _ = true
        rw [List.all_eq_true]
        intro f hf
        have := stripCourse_not_mem courseId s.folders f hf
        simp [this]
  | some tid =>
      by_cases he : tid = ""
      · subst he
        refine ⟨?_, ?_⟩
        · show (stripCourseFromFolders courseId s.folders).countP
              (fun f => f.courseIds.contains courseId) ≤ 1
          rw [stripCourse_countP]
          omega
        · show (stripCourseFromFolders courseId s.folders).all
              (fun f => !(f.courseIds.contains courseId) || (some f.id == some "")) = true
          rw [List.all_eq_true]
          intro f hf
          have := stripCourse_not_mem courseId s.folders f hf
          simp [this]
      · have hne : (tid == "") = false := by simp [he]
        refine ⟨?_, ?_⟩
        · show (if (tid == "") = true then stripCourseFromFolders courseId s.folders
              else addToFirstFolder courseId tid (stripCourseFromFolders courseId s.folders)).countP
              (fun f => f.courseIds.contains courseId) ≤ 1
          rw [hne]
          simp only [Bool.false_eq_true, if_false]
          exact addToFirstFolder_countP courseId tid _ (stripCourse_countP courseId s.folders)
        · show (if (tid == "") = true then stripCourseFromFolders courseId s.folders
              else addToFirstFolder courseId tid (stripCourseFromFolders courseId s.folders)).all
              (fun f => !(f.courseIds.contains courseId) || (some f.id == some tid)) = true
          rw [hne]
          simp only [Bool.false_eq_true, if_false]
          have h2 := addToFirstFolder_all courseId tid _
            (stripCourse_all_not courseId s.folders)
          rw [List.all_eq_true] at h2 ⊢
          intro f hf
          have := h2 f hf
          simpa using this

/-- C7: `handleSendSocraticMessage` appends exactly one user turn and sets
loading before awaiting the client; on a response it appends exactly one model
turn and clears loading, and on failure it appends the fixed fallback model
turn and clears loading; the prior history is a prefix of the final history,
so no turn is ever removed. -/
theorem socraticMessage_spec (message : String) (result : Except JsError String)
    (ss : SocraticState) :
    let r := handleSendSocraticMessage message result ss
    r.1.history = ss.history ++ [⟨ChatRole.user, message⟩] ∧
    r.1.isLoading = true ∧
    (∀ resp, result = Except.ok resp →
      r.2.history = r.1.history ++ [⟨ChatRole.model, resp⟩] ∧
      r.2.isLoading = false) ∧
    (∀ e, result = Except.error e →
      r.2.history = r.1.history ++ [⟨ChatRole.model, socraticFallback⟩] ∧
      r.2.isLoading = false) ∧
    (∃ rest, r.2.history = ss.history ++ rest) := by
  intro r
  cases result with
  | ok resp =>
      refine ⟨rfl, rfl, ?_, ?_, ?_⟩
      · intro resp2 h
        cases h
        exact ⟨rfl, rfl⟩
      · intro e h
        cases h
      · refine ⟨[⟨ChatRole.user, message⟩, ⟨ChatRole.model, resp⟩], ?_⟩
        show (ss.history ++ [⟨ChatRole.user, message⟩])
            ++ [⟨ChatRole.model, resp⟩] = _
        rw [List.append_assoc]
        rfl
  | error e =>
      refine ⟨rfl, rfl, ?_, ?_, ?_⟩
      · intro resp h
        cases h
      · intro e2 h
        cases h
        exact ⟨rfl, rfl⟩
      · refine ⟨[⟨ChatRole.user, message⟩, ⟨ChatRole.model, socraticFallback⟩], ?_⟩
        show (ss.history ++ [⟨ChatRole.user, message⟩])
            ++ [⟨ChatRole.model, socraticFallback⟩] = _
        rw [List.append_assoc]
        rfl

/-- Witness for C7: sending "Why?" into an empty open session with a
successful response yields exactly the user turn then the model turn. -/
theorem socraticMessage_spec_witness :
    (handleSendSocraticMessage "Why?" (Except.ok "Because.")
        ⟨true, "text", [], false⟩).2.history =
      [⟨ChatRole.user, "Why?"⟩, ⟨ChatRole.model, "Because."⟩] := by
  have h := socraticMessage_spec "Why?" (Except.ok "Because.")
    ⟨true, "text", [], false⟩
  have h2 := (h.2.2.1 "Because." rfl).1
  rw [h2, h.1]
  rfl

/-- C10: invoking `handleGenerateLessonFlashcards` with no active course
returns immediately: no generation-client call, no storage write, and the
whole state — the currently-generating marker included — is unchanged. -/
theorem flashcardsNoActiveCourse_spec (lessonId : String)
    (result : Except JsError (List Flashcard)) (s : AppState) (st : Storage)
    (h : s.activeCourse = none) :
    handleGenerateLessonFlashcards lessonId result s st = (s, st, ⟨0, 0⟩) := by
  rw [handleGenerateLessonFlashcards, h]

/-- Witness for C10: the initial state has no active course and the handler
leaves state, storage and effect counters untouched. -/
theorem flashcardsNoActiveCourse_spec_witness :
    handleGenerateLessonFlashcards "l1" (Except.ok []) initialState emptyStorage
      = (initialState, emptyStorage, ⟨0, 0⟩) :=
  flashcardsNoActiveCourse_spec "l1" (Except.ok []) initialState emptyStorage rfl

/-- Counterexample to C8 as stated: test-from-course generation never clears
the shared error at the start of the attempt — a prior error survives a
successful attempt unchanged, where the claim requires it to have been set to
null. -/
theorem errorClearing_counterexample :
    (handleTestCourseConcepts sampleCourse (Except.ok [])
        { initialState with error := some "old failure" }).1.error
      = some "old failure" := rfl

/-- C8 amended: course-generation and project-generation attempts clear the
shared error at their synchronous start and a successful attempt leaves it
null; test-from-course generation does not clear it — it leaves the error
untouched on success and overwrites it with the failure message on failure. -/
theorem errorClearing_spec (t pt : String) (level : KnowledgeLevel)
    (c : Course) (p : Project) (course : Course) (qs : List QuizData)
    (e : JsError) (s : AppState) (st : Storage) :
    (generationAttemptStart t s).error = none ∧
    (handleGenerateCourse t level none (Except.ok c) s st).1.error = none ∧
    (handleCreateProject pt (Except.ok p) s st).1.error = none ∧
    (handleTestCourseConcepts course (Except.ok qs) s).1.error = s.error ∧
    (handleTestCourseConcepts course (Except.error e) s).1.error
      = some (match e with
        | .error m => m
        | .other => "Could not generate the test for this course.") :=
  ⟨rfl, rfl, rfl, rfl, rfl⟩

/-- Pushing onto the first matching folder changes nothing when no folder has
the target id. -/
theorem addToFirstFolder_noMatch (cid tid : String) :
    ∀ l : List Folder, l.all (fun f => f.id != tid) = true →
      addToFirstFolder cid tid l = l := by
  intro l
  induction l with
  | nil => intro _; rfl
  | cons f fs ih =>
      intro h
      rw [List.all_cons, Bool.and_eq_true] at h
      unfold addToFirstFolder
      have hi : (f.id == tid) = false := by
        have := h.1
        simp only [bne_iff_ne, ne_eq] at this
        simp [this]
      rw [hi]
      simp only [Bool.false_eq_true, if_false]
      rw [ih h.2]

/-- The stripping pass keeps every folder's id. -/
theorem stripCourse_all_ids (cid tid : String) (fs : List Folder)
    (h : fs.all (fun f => f.id != tid) = true) :
    (stripCourseFromFolders cid fs).all (fun f => f.id != tid) = true := by
  rw [stripCourseFromFolders, List.all_map]
  exact h

/-- Counterexample to C9 as stated: moving a course to an unknown target
folder id is not a no-op — the course is still stripped from its current
folder's membership list. -/
theorem lookupMiss_counterexample :
    sampleState.folders.all (fun f => f.id != "nope") = true ∧
    (handleMoveCourseToFolder "c1" (some "nope") sampleState sampleStorage).1.folders
      = [⟨"f1", "Biology", []⟩] ∧
    sampleState.folders = [⟨"f1", "Biology", ["c1"]⟩] := by
  refine ⟨by decide, by decide, by decide⟩

/-- C9 amended: selecting a course, selecting a project and saving a note are
no-ops when the given id is not found, signalling no error; moving a course to
an unknown target folder id also signals no error but is not a no-op: it still
strips the course id from every folder's membership list, as a move to no
folder. -/
theorem lookupMiss_spec (courseId projectId lessonId note moveCourseId tid : String)
    (s : AppState) (st : Storage)
    (hc : s.courses.all (fun c => c.id != courseId) = true)
    (hp : s.projects.all (fun p => p.id != projectId) = true)
    (hf : s.folders.all (fun f => f.id != tid) = true) :
    handleSelectCourse courseId s = s ∧
    handleSelectProject projectId s = s ∧
    handleSaveNote courseId lessonId note s st = (s, st) ∧
    (handleMoveCourseToFolder moveCourseId (some tid) s st).1
      = { s with folders := stripCourseFromFolders moveCourseId s.folders } ∧
    (handleMoveCourseToFolder moveCourseId (some tid) s st).1.error = s.error := by
  have hcf : s.courses.find? (fun c => c.id == courseId) = none := by
    rw [List.find?_eq_none]
    intro c hcm
    have := List.all_eq_true.mp hc c hcm
    simpa using this
  have hpf : s.projects.find? (fun p => p.id == projectId) = none := by
    rw [List.find?_eq_none]
    intro p hpm
    have := List.all_eq_true.mp hp p hpm
    simpa using this
  have hmove : (handleMoveCourseToFolder moveCourseId (some tid) s st).1
      = { s with folders := stripCourseFromFolders moveCourseId s.folders } := by
    rw [handleMoveCourseToFolder]
    by_cases he : tid = ""
    · subst he
      rfl
    · have hne : (tid == "") = false := by simp [he]
      simp only [hne, Bool.false_eq_true, if_false]
      rw [addToFirstFolder_noMatch moveCourseId tid _
        (stripCourse_all_ids moveCourseId tid s.folders hf)]
  refine ⟨?_, ?_, ?_, hmove, ?_⟩
  · rw [handleSelectCourse, hcf]
  · rw [handleSelectProject, hpf]
  · rw [handleSaveNote, hcf]
  · rw [hmove]

/-- Witness for C9 amended: with empty collections every lookup misses; the
selects and the note save change nothing, and the move keeps the (empty)
folder list and the error slot. -/
theorem lookupMiss_spec_witness :
    handleSelectCourse "x" initialState = initialState ∧
    handleSelectProject "y" initialState = initialState ∧
    handleSaveNote "x" "l1" "note" initialState emptyStorage
      = (initialState, emptyStorage) ∧
    (handleMoveCourseToFolder "c9" (some "t9") initialState emptyStorage).1
      = { initialState with
          folders := stripCourseFromFolders "c9" initialState.folders } ∧
    (handleMoveCourseToFolder "c9" (some "t9") initialState emptyStorage).1.error
      = initialState.error :=
  lookupMiss_spec "x" "y" "l1" "note" "c9" "t9" initialState emptyStorage
    (by decide) (by decide) (by decide)

/-- One delete-course step preserves the no-dangling-references invariant. -/
theorem noDangling_deleteCourse (cid : String) (s : AppState) (st : Storage)
    (h : noDanglingB s = true) :
    noDanglingB (handleDeleteCourse cid s st).1 = true := by
  rw [noDanglingB, Bool.and_eq_true] at h
  obtain ⟨hfold, hprog⟩ := h
  rw [noDanglingB, Bool.and_eq_true]
  constructor
  · rw [List.all_eq_true]
    intro f hf
    rw [List.all_eq_true]
    intro x hx
    have hf2 : f ∈ stripCourseFromFolders cid s.folders := hf
    rw [stripCourseFromFolders, List.mem_map] at hf2
    obtain ⟨g, hg, rfl⟩ := hf2
    have hx2 : x ∈ g.courseIds.filter (fun id => id != cid) := hx
    rw [List.mem_filter] at hx2
    obtain ⟨hxg, hxne⟩ := hx2
    have hany := List.all_eq_true.mp (List.all_eq_true.mp hfold g hg) x hxg
    rw [List.any_eq_true] at hany ⊢
    obtain ⟨c, hc, hce⟩ := hany
    refine ⟨c, ?_, hce⟩
    show c ∈ s.courses.filter (fun c => c.id != cid)
    rw [List.mem_filter]
    refine ⟨hc, ?_⟩
    have hcx : c.id = x := by simpa using hce
    rw [hcx]
    exact hxne
  · rw [List.all_eq_true]
    intro p hp
    have hp2 : p ∈ deleteKey s.progressData cid := hp
    rw [deleteKey, List.mem_filter] at hp2
    obtain ⟨hpm, hpne⟩ := hp2
    have hany := List.all_eq_true.mp hprog p hpm
    rw [List.any_eq_true] at hany ⊢
    obtain ⟨c, hc, hce⟩ := hany
    refine ⟨c, ?_, hce⟩
    show c ∈ s.courses.filter (fun c => c.id != cid)
    rw [List.mem_filter]
    refine ⟨hc, ?_⟩
    have hcx : c.id = p.1 := by simpa using hce
    rw [hcx]
    exact hpne

/-- Right after a delete-course step, the deleted id is referenced by no
folder membership list and by no progress record. -/
theorem deleteCourse_unreferenced (cid : String) (s : AppState) (st : Storage) :
    ((handleDeleteCourse cid s st).1.folders.all
      (fun f => f.courseIds.all (fun x => x != cid))) = true ∧
    ((handleDeleteCourse cid s st).1.progressData.all
      (fun p => p.1 != cid)) = true := by
  constructor
  · rw [List.all_eq_true]
    intro f hf
    rw [List.all_eq_true]
    intro x hx
    have hf2 : f ∈ stripCourseFromFolders cid s.folders := hf
    rw [stripCourseFromFolders, List.mem_map] at hf2
    obtain ⟨g, _, rfl⟩ := hf2
    have hx2 : x ∈ g.courseIds.filter (fun id => id != cid) := hx
    rw [List.mem_filter] at hx2
    exact hx2.2
  · rw [List.all_eq_true]
    intro p hp
    have hp2 : p ∈ deleteKey s.progressData cid := hp
    rw [deleteKey, List.mem_filter] at hp2
    exact hp2.2

/-- Every delete-course sequence preserves the no-dangling-references
invariant. -/
theorem noDangling_applyDeletes (ids : List String) :
    ∀ (s : AppState) (st : Storage), noDanglingB s = true →
      noDanglingB (applyDeletes ids s st).1 = true := by
  induction ids with
  | nil => intro s st h; exact h
  | cons i is ih =>
      intro s st h
      have hstep : applyDeletes (i :: is) s st
          = applyDeletes is (handleDeleteCourse i s st).1
              (handleDeleteCourse i s st).2 := rfl
      rw [hstep]
      exact ih _ _ (noDangling_deleteCourse i s st h)

/-- C1: starting from a state with no dangling references, after each
`handleDeleteCourse` of a delete sequence no folder membership list and no
progress record mentions the just-deleted course id, and no reference to a
course id absent from the course list exists at all. -/
theorem deleteCourse_noDangling_spec (s : AppState) (st : Storage)
    (h : noDanglingB s = true) (pre : List String) (cid : String) :
    noDanglingB (applyDeletes (pre ++ [cid]) s st).1 = true ∧
    (applyDeletes (pre ++ [cid]) s st).1.folders.all
      (fun f => f.courseIds.all (fun x => x != cid)) = true ∧
    (applyDeletes (pre ++ [cid]) s st).1.progressData.all
      (fun p => p.1 != cid) = true := by
  have hpre := noDangling_applyDeletes pre s st h
  have hsplit : applyDeletes (pre ++ [cid]) s st
      = handleDeleteCourse cid (applyDeletes pre s st).1 (applyDeletes pre s st).2 := by
    rw [applyDeletes, List.foldl_append]
    rfl
  refine ⟨?_, ?_, ?_⟩
  · rw [hsplit]
    exact noDangling_deleteCourse cid _ _ hpre
  · rw [hsplit]
    exact (deleteCourse_unreferenced cid _ _).1
  · rw [hsplit]
    exact (deleteCourse_unreferenced cid _ _).2

/-- Witness for C1: the sample state has no dangling references, and deleting
its only course leaves the invariant intact with the id referenced
nowhere. -/
theorem deleteCourse_noDangling_spec_witness :
    noDanglingB (applyDeletes ([] ++ ["c1"]) sampleState sampleStorage).1 = true ∧
    (applyDeletes ([] ++ ["c1"]) sampleState sampleStorage).1.folders.all
      (fun f => f.courseIds.all (fun x => x != "c1")) = true ∧
    (applyDeletes ([] ++ ["c1"]) sampleState sampleStorage).1.progressData.all
      (fun p => p.1 != "c1") = true :=
  deleteCourse_noDangling_spec sampleState sampleStorage (by decide) [] "c1"

/-- Folding the pairwise maximum from any seed computes the maximum of the
seed and the record maximum. -/
theorem recordMax_foldl (m : Progress) :
    ∀ t, m.foldl (fun a e => max a e.2) t = max t (recordMax m) := by
  induction m with
  | nil => intro t; simp [recordMax]
  | cons e m ih =>
      intro t
      show m.foldl _ (max t e.2) = _
      rw [ih (max t e.2)]
      have h1 : recordMax (e :: m) = max e.2 (recordMax m) := by
        show m.foldl _ (max 0 e.2) = _
        rw [ih (max 0 e.2)]
        omega
      rw [h1]
      omega

/-- The record maximum of a cons. -/
theorem recordMax_cons (e : String × Nat) (m : Progress) :
    recordMax (e :: m) = max e.2 (recordMax m) := by
  show m.foldl _ (max 0 e.2) = _
  rw [recordMax_foldl m (max 0 e.2)]
  omega

/-- Folding the record maxima from any seed computes the maximum of the seed
and the global maximum. -/
theorem globalMax_foldl (pd : List (String × Progress)) :
    ∀ t, pd.foldl (fun a p => max a (recordMax p.2)) t = max t (globalMax pd) := by
  induction pd with
  | nil => intro t; simp [globalMax]
  | cons p rest ih =>
      intro t
      show rest.foldl _ (max t (recordMax p.2)) = _
      rw [ih (max t (recordMax p.2))]
      have h1 : globalMax (p :: rest) = max (recordMax p.2) (globalMax rest) := by
        show rest.foldl _ (max 0 (recordMax p.2)) = _
        rw [ih (max 0 (recordMax p.2))]
        omega
      rw [h1]
      omega

/-- The global maximum of a cons. -/
theorem globalMax_cons (p : String × Progress) (rest : List (String × Progress)) :
    globalMax (p :: rest) = max (recordMax p.2) (globalMax rest) := by
  show rest.foldl _ (max 0 (recordMax p.2)) = _
  rw [globalMax_foldl rest (max 0 (recordMax p.2))]
  omega

/-- Every timestamp of a record is at most the record maximum. -/
theorem le_recordMax (m : Progress) : ∀ e ∈ m, e.2 ≤ recordMax m := by
  induction m with
  | nil => intro e he; cases he
  | cons x m ih =>
      intro e he
      rw [recordMax_cons]
      rcases List.mem_cons.mp he with rfl | hm
      · omega
      · have := ih e hm
        omega

/-- A positive record maximum is attained by some entry. -/
theorem recordMax_attained (m : Progress) (h : 0 < recordMax m) :
    m.any (fun e => e.2 == recordMax m) = true := by
  induction m with
  | nil => simp [recordMax] at h
  | cons x m ih =>
      rw [recordMax_cons] at h ⊢
      by_cases hc : recordMax m ≤ x.2
      · have hx : max x.2 (recordMax m) = x.2 := by omega
        rw [hx]
        simp
      · have hx : max x.2 (recordMax m) = recordMax m := by omega
        rw [hx]
        rw [List.any_cons]
        have := ih (by omega)
        rw [this]
        simp

/-- No entry of a record equals a value above its maximum. -/
theorem any_gt_recordMax (m : Progress) (v : Nat) (h : recordMax m < v) :
    m.any (fun e => e.2 == v) = false := by
  cases ha : m.any (fun e => e.2 == v)
  · rfl
  · rw [List.any_eq_true] at ha
    obtain ⟨e, he, hev⟩ := ha
    have h1 : e.2 = v := by simpa using hev
    have h2 := le_recordMax m e he
    omega

/-- The running maximum kept by the record scan. -/
theorem scanRecord_fst (cid : String) (m : Progress) :
    ∀ acc : Nat × Option String,
      (scanRecord cid acc m).1 = max acc.1 (recordMax m) := by
  induction m with
  | nil => intro acc; simp [scanRecord, recordMax]
  | cons e m ih =>
      intro acc
      show (scanRecord cid (if acc.1 < e.2 then (e.2, some cid) else acc) m).1 = _
      rw [ih, recordMax_cons]
      by_cases h : acc.1 < e.2
      · rw [if_pos h]
        show max e.2 (recordMax m) = _
        omega
      · rw [if_neg h]
        omega

/-- The record scan is the identity when the record's maximum does not beat
the running maximum. -/
theorem scanRecord_skip (cid : String) (m : Progress) :
    ∀ acc : Nat × Option String, recordMax m ≤ acc.1 →
      scanRecord cid acc m = acc := by
  induction m with
  | nil => intro acc _; rfl
  | cons e m ih =>
      intro acc h
      rw [recordMax_cons] at h
      show scanRecord cid (if acc.1 < e.2 then (e.2, some cid) else acc) m = _
      rw [if_neg (by omega)]
      exact ih acc (by omega)

/-- The record scan elects the scanned course when the record's maximum beats
the running maximum. -/
theorem scanRecord_snd (cid : String) (m : Progress) :
    ∀ acc : Nat × Option String, acc.1 < recordMax m →
      (scanRecord cid acc m).2 = some cid := by
  induction m with
  | nil =>
      intro acc h
      simp [recordMax] at h
  | cons e m ih =>
      intro acc h
      rw [recordMax_cons] at h
      show (scanRecord cid (if acc.1 < e.2 then (e.2, some cid) else acc) m).2 = _
      by_cases he : acc.1 < e.2
      · rw [if_pos he]
        by_cases hm : recordMax m ≤ e.2
        · rw [scanRecord_skip cid m (e.2, some cid) hm]
        · rw [ih (e.2, some cid) (by omega)]
      · rw [if_neg he]
        exact ih acc (by omega)

/-- The full scan is the identity when nothing beats the running maximum. -/
theorem scanAll_skip (pd : List (String × Progress)) :
    ∀ acc : Nat × Option String, globalMax pd ≤ acc.1 →
      scanAll pd acc = acc := by
  induction pd with
  | nil => intro acc _; rfl
  | cons p rest ih =>
      intro acc h
      rw [globalMax_cons] at h
      show scanAll rest (scanRecord p.1 acc p.2) = acc
      rw [scanRecord_skip p.1 p.2 acc (by omega)]
      exact ih acc (by omega)

/-- The course elected by the full scan, when some timestamp beats the
running maximum, is the first course in iteration order whose record attains
the global maximum of the seed and all records. -/
theorem scanAll_snd (pd : List (String × Progress)) :
    ∀ acc : Nat × Option String, acc.1 < globalMax pd →
      (scanAll pd acc).2 =
        (pd.find? (fun p => p.2.any (fun e => e.2 == max acc.1 (globalMax pd)))).map
          Prod.fst := by
  induction pd with
  | nil =>
      intro acc h
      simp [globalMax] at h
  | cons p rest ih =>
      intro acc h
      have hg := globalMax_cons p rest
      show (scanAll rest (scanRecord p.1 acc p.2)).2 = _
      by_cases hpc : acc.1 < recordMax p.2
      · have hfst : (scanRecord p.1 acc p.2).1 = recordMax p.2 := by
          rw [scanRecord_fst]
          omega
        have hsnd : (scanRecord p.1 acc p.2).2 = some p.1 :=
          scanRecord_snd p.1 p.2 acc hpc
        by_cases hrest : globalMax rest ≤ recordMax p.2
        · have hskip : scanAll rest (scanRecord p.1 acc p.2)
              = scanRecord p.1 acc p.2 := by
            apply scanAll_skip
            rw [hfst]
            exact hrest
          rw [hskip, hsnd]
          have hgv : max acc.1 (globalMax (p :: rest)) = recordMax p.2 := by omega
          have hany : p.2.any (fun e => e.2 == max acc.1 (globalMax (p :: rest)))
              = true := by
            rw [hgv]
            exact recordMax_attained p.2 (by omega)
          have hfind : (p :: rest).find?
              (fun q => q.2.any (fun e => e.2 == max acc.1 (globalMax (p :: rest))))
              = some p := List.find?_cons_of_pos rest hany
          rw [hfind]
          rfl
        · have hlt : (scanRecord p.1 acc p.2).1 < globalMax rest := by
            rw [hfst]
            omega
          rw [ih _ hlt]
          have hgv : max (scanRecord p.1 acc p.2).1 (globalMax rest)
              = max acc.1 (globalMax (p :: rest)) := by
            rw [hfst]
            omega
          rw [hgv]
          have hnone : p.2.any (fun e => e.2 == max acc.1 (globalMax (p :: rest)))
              = false := by
            apply any_gt_recordMax
            omega
          have hfind : (p :: rest).find?
              (fun q => q.2.any (fun e => e.2 == max acc.1 (globalMax (p :: rest))))
              = rest.find?
              (fun q => q.2.any (fun e => e.2 == max acc.1 (globalMax (p :: rest)))) :=
            List.find?_cons_of_neg rest (by rw [hnone]; exact Bool.false_ne_true)
          rw [hfind]
      · have hskip : scanRecord p.1 acc p.2 = acc :=
          scanRecord_skip p.1 p.2 acc (by omega)
        rw [hskip]
        have hrest : acc.1 < globalMax rest := by omega
        rw [ih acc hrest]
        have hgv : max acc.1 (globalMax rest) = max acc.1 (globalMax (p :: rest)) := by
          omega
        rw [hgv]
        have hnone : p.2.any (fun e => e.2 == max acc.1 (globalMax (p :: rest)))
            = false := by
          apply any_gt_recordMax
          omega
        have hfind : (p :: rest).find?
            (fun q => q.2.any (fun e => e.2 == max acc.1 (globalMax (p :: rest))))
            = rest.find?
            (fun q => q.2.any (fun e => e.2 == max acc.1 (globalMax (p :: rest)))) :=
          List.find?_cons_of_neg rest (by rw [hnone]; exact Bool.false_ne_true)
        rw [hfind]

/-- Counterexample to C5 as stated: with a single course whose only completion
timestamp is 0 the progress maps are not all empty and course `c1` is the one
holding the globally maximum timestamp, yet the memo returns null — a
timestamp of 0 can never beat the scan's initial running value 0. -/
theorem lastActive_counterexample :
    lastActiveCourseId [("c1", [("l1", 0)])] = none ∧
    specLastActiveCourseId [("c1", [("l1", 0)])] = some "c1" ∧
    ([("c1", [("l1", 0)])] : List (String × Progress)) ≠ [] := by
  refine ⟨by decide, by decide, by simp⟩

/-- C5 amended: the derived last-active course id is null when the globally
maximum timestamp is 0 — in particular when the progress-data object is empty
or all its maps are empty — and otherwise equals the first course in
iteration order whose progress map attains that global maximum, so ties
resolve to the course encountered first. -/
theorem lastActive_spec (pd : List (String × Progress)) :
    lastActiveCourseId pd =
      if globalMax pd = 0 then none else specLastActiveCourseId pd := by
  by_cases h : globalMax pd = 0
  · rw [if_pos h, lastActiveCourseId]
    by_cases hemp : pd.isEmpty
    · rw [if_pos hemp]
    · rw [if_neg hemp, scanAll_skip pd (0, none) (le_of_eq h)]
  · rw [if_neg h]
    have hpos : 0 < globalMax pd := Nat.pos_of_ne_zero h
    have hne : pd.isEmpty = false := by
      cases pd with
      | nil =>
          rw [globalMax] at hpos
          simp at hpos
      | cons a l => rfl
    rw [lastActiveCourseId, hne]
    simp only [Bool.false_eq_true, if_false]
    have hsnd := scanAll_snd pd (0, none) hpos
    rw [hsnd]
    simp only [Nat.zero_max]
    rfl

/-- Looking a key up right after rebinding it yields the new value. -/
theorem lookupKey_setKey (k : String) (v : α) :
    ∀ l : List (String × α), lookupKey (setKey l k v) k = some v := by
  intro l
  rw [setKey]
  split
  · rename_i h
    rw [lookupKey]
    have hfind : ∀ l2 : List (String × α), l2.any (fun p => p.1 == k) = true →
        (l2.map (fun p => if p.1 == k then (k, v) else p)).find?
          (fun p => p.1 == k) = some (k, v) := by
      intro l2
      induction l2 with
      | nil => intro hx; simp at hx
      | cons e l2 ih =>
          intro hx
          by_cases he : (e.1 == k) = true
          · show List.find? _ ((if (e.1 == k) = true then (k, v) else e) :: _) = _
            rw [if_pos he]
            exact List.find?_cons_of_pos _ (by simp)
          · show List.find? _ ((if (e.1 == k) = true then (k, v) else e) :: _) = _
            rw [if_neg he]
            have hstep : List.find? (fun p => p.1 == k)
                (e :: (l2.map (fun p => if p.1 == k then (k, v) else p)))
                = List.find? (fun p => p.1 == k)
                  (l2.map (fun p => if p.1 == k then (k, v) else p)) :=
              List.find?_cons_of_neg _ he
            rw [hstep]
            apply ih
            rw [List.any_cons] at hx
            rcases Bool.or_eq_true _ _ |>.mp hx with hl | hr
            · exact absurd hl he
            · exact hr
    rw [hfind l h]
    rfl
  · rename_i h
    rw [lookupKey]
    have hnone : ∀ l2 : List (String × α), l2.any (fun p => p.1 == k) = false →
        (l2 ++ [(k, v)]).find? (fun p => p.1 == k) = some (k, v) := by
      intro l2
      induction l2 with
      | nil =>
          intro _
          exact List.find?_cons_of_pos _ (by simp)
      | cons e l2 ih =>
          intro hx
          rw [List.any_cons] at hx
          have he : (e.1 == k) = false := by
            cases hy : (e.1 == k)
            · rfl
            · rw [hy] at hx; simp at hx
          have hl2 : l2.any (fun p => p.1 == k) = false := by
            cases hy : l2.any (fun p => p.1 == k)
            · rfl
            · rw [hy] at hx; simp at hx
          show List.find? _ (e :: (l2 ++ [(k, v)])) = _
          rw [List.find?_cons_of_neg _ (by rw [he]; exact Bool.false_ne_true)]
          exact ih hl2
    have hfalse : l.any (fun p => p.1 == k) = false := by
      cases hy : l.any (fun p => p.1 == k)
      · rfl
      · exact absurd hy h
    rw [hnone l hfalse]
    rfl

/-- Every record "contains itself" keywise. -/
theorem record_keys_self (m : Progress) :
    m.all (fun e => m.any (fun e0 => e0.1 == e.1)) = true := by
  rw [List.all_eq_true]
  intro e he
  rw [List.any_eq_true]
  exact ⟨e, he, by simp⟩

/-- Toggling the same lesson twice restores the record's key set, and when
the lesson was absent it restores the record exactly; when the lesson was
present, the re-inserted entry carries the second toggle's timestamp. -/
theorem toggleRecord_twice (now1 now2 : Nat) (lid : String) (m0 : Progress) :
    ((toggleRecord now2 lid (toggleRecord now1 lid m0)).all
        (fun e => m0.any (fun e0 => e0.1 == e.1)) = true ∧
      m0.all (fun e0 => (toggleRecord now2 lid (toggleRecord now1 lid m0)).any
        (fun e => e.1 == e0.1)) = true) ∧
    (m0.any (fun e => e.1 == lid) = false →
      toggleRecord now2 lid (toggleRecord now1 lid m0) = m0) := by
  by_cases hA : m0.any (fun e => e.1 == lid) = true
  · have h1 : toggleRecord now1 lid m0 = m0.filter (fun e => e.1 != lid) := by
      rw [toggleRecord, if_pos hA]
    have h2 : (m0.filter (fun e => e.1 != lid)).any (fun e => e.1 == lid) = false := by
      cases hy : (m0.filter (fun e => e.1 != lid)).any (fun e => e.1 == lid)
      · rfl
      · rw [List.any_eq_true] at hy
        obtain ⟨e, he, heq⟩ := hy
        rw [List.mem_filter] at he
        have hx : e.1 = lid := by simpa using heq
        have hy2 : e.1 ≠ lid := by simpa using he.2
        exact absurd hx hy2
    have h3 : toggleRecord now2 lid (toggleRecord now1 lid m0)
        = m0.filter (fun e => e.1 != lid) ++ [(lid, now2)] := by
      rw [h1, toggleRecord, h2]
      simp
    rw [h3]
    refine ⟨⟨?_, ?_⟩, ?_⟩
    · rw [List.all_append, Bool.and_eq_true]
      constructor
      · rw [List.all_eq_true]
        intro e he
        rw [List.mem_filter] at he
        rw [List.any_eq_true]
        exact ⟨e, he.1, by simp⟩
      · rw [List.all_eq_true]
        intro e he
        rw [List.mem_singleton] at he
        subst he
        exact hA
    · rw [List.all_eq_true]
      intro e0 he0
      rw [List.any_append, Bool.or_eq_true]
      by_cases hd : (e0.1 == lid) = true
      · right
        have : e0.1 = lid := by simpa using hd
        rw [List.any_eq_true]
        exact ⟨(lid, now2), by simp, by simp [this]⟩
      · left
        rw [List.any_eq_true]
        refine ⟨e0, ?_, by simp⟩
        rw [List.mem_filter]
        refine ⟨he0, ?_⟩
        simp only [bne_iff_ne, ne_eq]
        intro hx
        exact hd (by simp [hx])
    · intro hcontra
      rw [hA] at hcontra
      simp at hcontra
  · have hAf : m0.any (fun e => e.1 == lid) = false := by
      cases hy : m0.any (fun e => e.1 == lid)
      · rfl
      · exact absurd hy hA
    have h1 : toggleRecord now1 lid m0 = m0 ++ [(lid, now1)] := by
      rw [toggleRecord, hAf]
      simp
    have h2 : (m0 ++ [(lid, now1)]).any (fun e => e.1 == lid) = true := by
      rw [List.any_append]
      simp
    have h4 : m0.filter (fun e => e.1 != lid) = m0 := by
      rw [List.filter_eq_self]
      intro e he
      have hbf : (e.1 == lid) = false := by
        cases hy : (e.1 == lid)
        · rfl
        · exact absurd (List.any_eq_true.mpr ⟨e, he, hy⟩) hA
      have hne2 : e.1 ≠ lid := by simpa using hbf
      simp [hne2]
    have h3 : toggleRecord now2 lid (toggleRecord now1 lid m0) = m0 := by
      rw [h1, toggleRecord, h2]
      simp only [if_true]
      rw [List.filter_append, h4]
      simp
    rw [h3]
    exact ⟨⟨record_keys_self m0, record_keys_self m0⟩, fun _ => rfl⟩

/-- Counterexample to C6 as stated: the lesson `l1` of course `c1` is complete
at timestamp 5; toggling it twice (at times 6 and 7) yields a record holding
timestamp 7, not the original record — the re-inserted entry carries the
second toggle's current timestamp. -/
theorem toggleLesson_twice_counterexample :
    (lookupKey ((handleToggleLessonComplete 7 "c1" "l1"
        (handleToggleLessonComplete 6 "c1" "l1" sampleState sampleStorage).1
        (handleToggleLessonComplete 6 "c1" "l1" sampleState sampleStorage).2).1.progressData)
      "c1").getD [] = [("l1", 7)] ∧
    (lookupKey sampleState.progressData "c1").getD [] = [("l1", 5)] ∧
    ([("l1", 7)] : Progress) ≠ [("l1", 5)] := by
  refine ⟨by decide, by decide, by decide⟩

/-- C6 amended: when memory and storage agree on the course's record, toggling
the same (course id, lesson id) pair twice in succession restores the set of
completed lessons of that course's progress map — and restores the map exactly
whenever the lesson was not already complete; a lesson that was complete is
re-inserted with the second toggle's timestamp rather than its original one. -/
theorem toggleLesson_twice_spec (now1 now2 : Nat) (courseId lessonId : String)
    (s : AppState) (st : Storage)
    (hsync : (lookupKey s.progressData courseId).getD []
      = (lookupKey st.progress courseId).getD []) :
    let r1 := handleToggleLessonComplete now1 courseId lessonId s st
    let r2 := handleToggleLessonComplete now2 courseId lessonId r1.1 r1.2
    let m0 := (lookupKey s.progressData courseId).getD []
    let m2 := (lookupKey r2.1.progressData courseId).getD []
    (m2.all (fun e => m0.any (fun e0 => e0.1 == e.1)) = true ∧
     m0.all (fun e0 => m2.any (fun e => e.1 == e0.1)) = true) ∧
    (m0.any (fun e => e.1 == lessonId) = false → m2 = m0) := by
  intro r1 r2 m0 m2
  have hm2 : m2 = toggleRecord now2 lessonId (toggleRecord now1 lessonId
      ((lookupKey st.progress courseId).getD [])) := by
    show (lookupKey (setKey (setKey s.progressData courseId
        (toggleRecord now1 lessonId ((lookupKey st.progress courseId).getD [])))
        courseId
        (toggleRecord now2 lessonId ((lookupKey (setKey st.progress courseId
          (toggleRecord now1 lessonId ((lookupKey st.progress courseId).getD [])))
          courseId).getD []))) courseId).getD [] = _
    rw [lookupKey_setKey, lookupKey_setKey]
    rfl
  have hm0 : (lookupKey st.progress courseId).getD [] = m0 := hsync.symm
  rw [hm0] at hm2
  have := toggleRecord_twice now1 now2 lessonId m0
  rw [hm2]
  exact this

/-- Witness for C6 amended: memory and storage agree in the sample state;
toggling a fresh lesson `l2` twice leaves the record of `c1` exactly as it
was. -/
theorem toggleLesson_twice_spec_witness :
    ((lookupKey ((handleToggleLessonComplete 9 "c1" "l2"
          (handleToggleLessonComplete 8 "c1" "l2" sampleState sampleStorage).1
          (handleToggleLessonComplete 8 "c1" "l2" sampleState sampleStorage).2).1.progressData)
        "c1").getD []).all
      (fun e => ((lookupKey sampleState.progressData "c1").getD []).any
        (fun e0 => e0.1 == e.1)) = true ∧
    (lookupKey ((handleToggleLessonComplete 9 "c1" "l2"
        (handleToggleLessonComplete 8 "c1" "l2" sampleState sampleStorage).1
        (handleToggleLessonComplete 8 "c1" "l2" sampleState sampleStorage).2).1.progressData)
      "c1").getD [] = (lookupKey sampleState.progressData "c1").getD [] :=
  ⟨(toggleLesson_twice_spec 8 9 "c1" "l2" sampleState sampleStorage (by decide)).1.1,
   (toggleLesson_twice_spec 8 9 "c1" "l2" sampleState sampleStorage (by decide)).2
     (by decide)⟩
